import Mathlib

/-!
Verification of the Trello-clone Kanban board core.

The definitions below are a shallow embedding of the repository's source:

* `src/types/board.ts` — the `Comment`/`Card`/`List`/`Board` records
  (the list type is called `BList` here because `List` is taken by Lean).
* `src/hooks/use-board.ts` — the store operations (`deleteList`,
  `deleteCard`, `moveList`, `moveCard`, `addComment`, `getCard`, ...).
  Each `setBoard(prev => ...)` updater is embedded as a pure function
  `Board → ... → Board`.  Fresh ids and timestamps produced by
  `generateId`/`new Date()` enter as explicit string parameters.
* the board component (`findContainer`, `collisionDetectionStrategy`,
  `handleDragOver`, `handleDragCancel`) — the drag-session logic.  The
  geometric primitives of dnd-kit (`closestCenter`, `pointerWithin`,
  `rectIntersection`) are external library code and are taken as function
  parameters; the one geometric test done inline by the source
  (`isBelowOverItem`) is abstracted to a boolean event field.

JavaScript `Array.prototype.splice` index handling (negative indices count
from the end, indices past the end are clamped, and removing from an empty
range yields `undefined`, which the source may then insert back) is
modelled exactly; see `spliceStart`, `moveList` and `BoardJS`.
-/

set_option maxHeartbeats 1000000

namespace Trello

/-- A comment on a card (src/types/board.ts). -/
structure Comment where
  id : String
  text : String
  author : String
  createdAt : String
deriving DecidableEq, Repr

/-- A card within a list (src/types/board.ts). -/
structure Card where
  id : String
  title : String
  comments : List Comment
  createdAt : String
deriving DecidableEq, Repr

/-- A list (column) within a board (src/types/board.ts); named `BList`
because `List` is Lean's list type. -/
structure BList where
  id : String
  title : String
  cards : List Card
deriving DecidableEq, Repr

/-- The entire board (src/types/board.ts). -/
structure Board where
  id : String
  title : String
  lists : List BList
deriving DecidableEq, Repr

/-- A board whose list array may contain `undefined` slots (`none`), as a
JavaScript array can after `splice(toIndex, 0, undefined)`.  `moveList`
can produce such a board when `fromIndex` is out of bounds. -/
structure BoardJS where
  id : String
  title : String
  lists : List (Option BList)
deriving DecidableEq, Repr

/-- Injection of a well-formed board into the JavaScript-array view. -/
def Board.toJS (b : Board) : BoardJS :=
  { id := b.id, title := b.title, lists := b.lists.map some }

/-- Start-index normalization of JavaScript `Array.prototype.splice`:
negative values count from the end of the array (clamped at 0), values
past the end are clamped to the length. -/
def spliceStart (len : Nat) (i : Int) : Nat :=
  if i < 0 then (len + i).toNat else min i.toNat len

/-- Replace the first element satisfying `p` by its image under `f`.
This captures the JavaScript pattern in `moveCard` of mutating the object
returned by `Array.prototype.find` inside a shallow-copied array. -/
def modifyFirst {α : Type} (l : List α) (p : α → Bool) (f : α → α) : List α :=
  match l with
  | [] => []
  | x :: xs => if p x then f x :: xs else x :: modifyFirst xs p f

/-- `updateBoardTitle` from src/hooks/use-board.ts. -/
def updateBoardTitle (b : Board) (title : String) : Board :=
  { b with title := title }

/-- `addList` from src/hooks/use-board.ts; the id generated by
`generateId('list')` is the `newId` parameter. -/
def addList (b : Board) (title newId : String) : Board :=
  { b with lists := b.lists ++ [{ id := newId, title := title, cards := [] }] }

/-- `deleteList` from src/hooks/use-board.ts. -/
def deleteList (b : Board) (listId : String) : Board :=
  { b with lists := b.lists.filter (fun list => !(list.id == listId)) }

/-- `updateListTitle` from src/hooks/use-board.ts. -/
def updateListTitle (b : Board) (listId title : String) : Board :=
  { b with
    lists := b.lists.map (fun list =>
      if list.id == listId then { list with title := title } else list) }

/-- `moveList` from src/hooks/use-board.ts.  There is no bounds check in
the source: `splice(fromIndex, 1)` removes the list at the (normalized)
index if there is one — yielding `undefined` otherwise — and the removed
value, possibly `undefined`, is then spliced back in at `toIndex`.  The
result is therefore a `BoardJS`. -/
def moveList (b : Board) (fromIndex toIndex : Int) : BoardJS :=
  let start := spliceStart b.lists.length fromIndex
  let moved : Option BList := b.lists[start]?
  let afterRemove := b.lists.eraseIdx start
  let arr : List (Option BList) := afterRemove.map some
  { id := b.id, title := b.title,
    lists := arr.insertIdx (spliceStart arr.length toIndex) moved }

/-- `addCard` from src/hooks/use-board.ts; generated id and timestamp are
parameters. -/
def addCard (b : Board) (listId title newId createdAt : String) : Board :=
  { b with
    lists := b.lists.map (fun list =>
      if list.id == listId then
        { list with
          cards := list.cards ++
            [{ id := newId, title := title, comments := [], createdAt := createdAt }] }
      else list) }

/-- `deleteCard` from src/hooks/use-board.ts. -/
def deleteCard (b : Board) (listId cardId : String) : Board :=
  { b with
    lists := b.lists.map (fun list =>
      if list.id == listId then
        { list with cards := list.cards.filter (fun c => !(c.id == cardId)) }
      else list) }

/-- `updateCardTitle` from src/hooks/use-board.ts. -/
def updateCardTitle (b : Board) (listId cardId title : String) : Board :=
  { b with
    lists := b.lists.map (fun list =>
      if list.id == listId then
        { list with
          cards := list.cards.map (fun card =>
            if card.id == cardId then { card with title := title } else card) }
      else list) }

/-- `moveCard` from src/hooks/use-board.ts.  The source shallow-copies the
lists, finds source and destination by id, bails out (returning the board
unchanged) when either is missing or `sourceIndex` is out of range, then
splices the card out of the source and into the destination at
`Math.min(destIndex, destList.cards.length)` — where the destination
length is read after the removal, so when source and destination are the
same object the clamp is against the shortened list. -/
def moveCard (b : Board) (sourceListId destListId : String)
    (sourceIndex destIndex : Int) : Board :=
  match b.lists.find? (fun l => l.id == sourceListId),
        b.lists.find? (fun l => l.id == destListId) with
  | some sourceList, some destList =>
    if sourceIndex < 0 ∨ (sourceList.cards.length : Int) ≤ sourceIndex then b
    else
      match sourceList.cards[sourceIndex.toNat]? with
      | none => b
      | some movedCard =>
        if sourceListId == destListId then
          let removed := sourceList.cards.eraseIdx sourceIndex.toNat
          let newCards := removed.insertIdx
            (spliceStart removed.length (min destIndex (removed.length : Int))) movedCard
          { b with
            lists := modifyFirst b.lists (fun l => l.id == sourceListId)
              (fun l => { l with cards := newCards }) }
        else
          let newSourceCards := sourceList.cards.eraseIdx sourceIndex.toNat
          let newDestCards := destList.cards.insertIdx
            (spliceStart destList.cards.length
              (min destIndex (destList.cards.length : Int))) movedCard
          { b with
            lists := modifyFirst
              (modifyFirst b.lists (fun l => l.id == sourceListId)
                (fun l => { l with cards := newSourceCards }))
              (fun l => l.id == destListId)
              (fun l => { l with cards := newDestCards }) }
  | _, _ => b

/-- `addComment` from src/hooks/use-board.ts; the generated comment id and
timestamp are parameters, the author is the fixed string `"User"`. -/
def addComment (b : Board) (listId cardId text newId createdAt : String) : Board :=
  let newComment : Comment :=
    { id := newId, text := text, author := "User", createdAt := createdAt }
  { b with
    lists := b.lists.map (fun list =>
      if list.id == listId then
        { list with
          cards := list.cards.map (fun card =>
            if card.id == cardId then
              { card with comments := card.comments ++ [newComment] }
            else card) }
      else list) }

/-- `getCard` from src/hooks/use-board.ts. -/
def getCard (b : Board) (listId cardId : String) : Option Card :=
  (b.lists.find? (fun l => l.id == listId)).bind
    (fun list => list.cards.find? (fun c => c.id == cardId))

/-- Total number of cards on the board. -/
def totalCards (b : Board) : Nat :=
  (b.lists.map (fun l => l.cards.length)).sum

/-- Number of cards in the (first) list with the given id, 0 if absent. -/
def cardsOf (b : Board) (listId : String) : Nat :=
  match b.lists.find? (fun l => l.id == listId) with
  | some l => l.cards.length
  | none => 0

example : spliceStart 3 (-1) = 2 := by decide
example : spliceStart 3 5 = 3 := by decide

/-- The declared kind of a dragged item (`active.data.current.type`). -/
inductive DragKind where
  | list
  | card
deriving DecidableEq, Repr

/-- `findContainer` from the board component: a list id is its own
container; otherwise the first list whose cards contain the id owns it. -/
def findContainer (b : Board) (itemId : String) : Option String :=
  if b.lists.any (fun l => l.id == itemId) then some itemId
  else (b.lists.find? (fun l => l.cards.any (fun c => c.id == itemId))).map (fun l => l.id)

/-- A `DragOverEvent` as consumed by `handleDragOver`: the active item's
id, the id the pointer is over (if any), and the outcome of the source's
single geometric test (`active.rect.current.translated.top >
over.rect.top + over.rect.height / 2`). -/
structure DragOverEvent where
  activeId : String
  overId : Option String
  isBelowOverItem : Bool
deriving DecidableEq, Repr

/-- `handleDragOver` from the board component: on a cross-container card
hover, optimistically relocates the card via `moveCard`; in every other
case the board is left untouched. -/
def handleDragOver (b : Board) (activeType : Option DragKind) (ev : DragOverEvent) : Board :=
  match ev.overId with
  | none => b
  | some overId =>
    if activeType ≠ some DragKind.card then b
    else
      match findContainer b ev.activeId, findContainer b overId with
      | some activeContainer, some overContainer =>
        if activeContainer == overContainer then b
        else
          match b.lists.find? (fun l => l.id == activeContainer),
                b.lists.find? (fun l => l.id == overContainer) with
          | some sourceList, some destList =>
            match sourceList.cards.findIdx? (fun c => c.id == ev.activeId) with
            | none => b
            | some activeIndex =>
              let newIndex : Int :=
                if b.lists.any (fun l => l.id == overId) then
                  (destList.cards.length : Int)
                else
                  match destList.cards.findIdx? (fun c => c.id == overId) with
                  | some overIndex =>
                    (overIndex : Int) + (if ev.isBelowOverItem then 1 else 0)
                  | none => (destList.cards.length : Int)
              moveCard b activeContainer overContainer (activeIndex : Int) newIndex
          | _, _ => b
      | _, _ => b

/-- The drag-session bookkeeping of the board component: `activeId`,
`activeType` and the `recentlyMovedToNewContainer` ref. -/
structure DragSession where
  activeId : Option String
  activeType : Option DragKind
  recentlyMovedToNewContainer : Bool
deriving DecidableEq, Repr

/-- `handleDragCancel` from the board component: resets the session
bookkeeping and touches nothing else — in particular not the board. -/
def handleDragCancel (b : Board) (s : DragSession) : Board × DragSession :=
  (b, { activeId := none, activeType := none, recentlyMovedToNewContainer := false })

/-- A collision reported by a collision-detection strategy (only the `id`
field of dnd-kit's `Collision` is ever used by the source). -/
structure Collision where
  id : String
deriving DecidableEq, Repr

/-- A droppable container as passed to the collision-detection functions;
its geometry lives inside the opaque detection functions, only the id is
inspected by the source. -/
structure DroppableContainer where
  id : String
deriving DecidableEq, Repr

/-- `collisionDetectionStrategy` from the board component.  The dnd-kit
geometric primitives `closestCenter`, `pointerWithin` and
`rectIntersection` are external library code and enter as function
parameters (the drag geometry of the current invocation is fixed, so each
is a function of the candidate containers only).  Returns the collision
list together with the new value of the `lastOverId` ref. -/
def collisionDetectionStrategy
    (closestCenter pointerWithin rectIntersection : List DroppableContainer → List Collision)
    (activeType : Option DragKind) (activeId : Option String)
    (listIds : List String) (lists : List BList)
    (droppableContainers : List DroppableContainer)
    (lastOverId : Option String) (recentlyMovedToNewContainer : Bool) :
    List Collision × Option String :=
  if activeType = some DragKind.list then
    (closestCenter (droppableContainers.filter (fun c => listIds.contains c.id)), lastOverId)
  else
    let pointerCollisions := pointerWithin droppableContainers
    let collisions :=
      if 0 < pointerCollisions.length then pointerCollisions
      else rectIntersection droppableContainers
    match (collisions.head?).map (fun col => col.id) with
    | some overId0 =>
      let overId :=
        if listIds.contains overId0 then
          match lists.find? (fun l => l.id == overId0) with
          | some list =>
            if 0 < list.cards.length then
              let cardIds := list.cards.map (fun c => c.id)
              let closestCard :=
                closestCenter (droppableContainers.filter (fun c => cardIds.contains c.id))
              match closestCard.head? with
              | some c => c.id
              | none => overId0
            else overId0
          | none => overId0
        else overId0
      ([{ id := overId }], some overId)
    | none =>
      let last := if recentlyMovedToNewContainer then activeId else lastOverId
      (match last with | some i => [{ id := i }] | none => [], last)

section Helpers

variable {α β : Type}

lemma map_eq_self_of_forall {l : List α} {f : α → α} (h : ∀ a ∈ l, f a = a) :
    l.map f = l := by
  induction l with
  | nil => rfl
  | cons x xs ih =>
    simp only [List.map_cons, h x (by simp)]
    rw [ih fun a ha => h a (by simp [ha])]

lemma find?_append_left_none {l₁ l₂ : List α} {p : α → Bool}
    (h : ∀ a ∈ l₁, p a = false) : (l₁ ++ l₂).find? p = l₂.find? p := by
  rw [List.find?_append, List.find?_eq_none.mpr (by simpa using h)]
  rfl

lemma modifyFirst_eq_of_find?_none {l : List α} {p : α → Bool} {f : α → α}
    (h : l.find? p = none) : modifyFirst l p f = l := by
  induction l with
  | nil => rfl
  | cons x xs ih =>
    rw [List.find?_eq_none] at h
    have hx : p x = false := by simpa using h x (by simp)
    simp only [modifyFirst, hx, Bool.false_eq_true, if_false, List.cons.injEq, true_and]
    exact ih (List.find?_eq_none.mpr fun a ha => h a (by simp [ha]))

lemma modifyFirst_split {l : List α} {p : α → Bool} {x : α}
    (h : l.find? p = some x) :
    ∃ u v, l = u ++ x :: v ∧ (∀ y ∈ u, p y = false) ∧
      ∀ f : α → α, modifyFirst l p f = u ++ f x :: v := by
  induction l with
  | nil => simp at h
  | cons a as ih =>
    by_cases ha : p a = true
    · rw [List.find?_cons_of_pos as ha] at h
      obtain rfl : a = x := by injection h
      exact ⟨[], as, rfl, by simp, fun f => by simp [modifyFirst, ha]⟩
    · rw [List.find?_cons_of_neg as ha] at h
      obtain ⟨u, v, hl, hu, hm⟩ := ih h
      refine ⟨a :: u, v, by simp [hl], ?_, fun f => ?_⟩
      · intro y hy
        rcases List.mem_cons.mp hy with rfl | hy
        · simpa using ha
        · exact hu y hy
      · have hred : modifyFirst (a :: as) p f = a :: modifyFirst as p f := by
          simp [modifyFirst, ha]
        rw [hred, hm f]
        simp

lemma map_modifyFirst (g : α → β) {l : List α} {p : α → Bool} {f : α → α}
    (hf : ∀ y, g (f y) = g y) : (modifyFirst l p f).map g = l.map g := by
  induction l with
  | nil => rfl
  | cons x xs ih =>
    by_cases hx : p x = true
    · simp [modifyFirst, hx, hf]
    · simp [modifyFirst, hx, ih]

lemma find?_modifyFirst_self {l : List α} {p : α → Bool} {f : α → α} {x : α}
    (h : l.find? p = some x) (hfp : p (f x) = true) :
    (modifyFirst l p f).find? p = some (f x) := by
  obtain ⟨u, v, _, hu, hm⟩ := modifyFirst_split h
  rw [hm f, find?_append_left_none hu, List.find?_cons_of_pos v hfp]

lemma find?_modifyFirst_other {l : List α} {p q : α → Bool} {f : α → α}
    (hq : ∀ y, q (f y) = q y) (hdisj : ∀ y, p y = true → q y = false) :
    (modifyFirst l p f).find? q = l.find? q := by
  induction l with
  | nil => rfl
  | cons x xs ih =>
    by_cases hx : p x = true
    · have hqx : q x = false := hdisj x hx
      have hqfx : q (f x) = false := by rw [hq]; exact hqx
      simp [modifyFirst, hx, List.find?_cons_of_neg, hqx, hqfx]
    · simp only [modifyFirst, hx, Bool.false_eq_true, if_false]
      by_cases hqx : q x = true
      · simp [List.find?_cons_of_pos, hqx]
      · simp only [List.find?_cons_of_neg _ hqx, List.find?_cons_of_neg xs hqx]
        exact ih

lemma sum_map_modifyFirst (g : α → Nat) (f : α → α) {l : List α} {p : α → Bool} {x : α}
    (h : l.find? p = some x) :
    ((modifyFirst l p f).map g).sum + g x = (l.map g).sum + g (f x) := by
  induction l with
  | nil => simp at h
  | cons a as ih =>
    by_cases ha : p a = true
    · rw [List.find?_cons_of_pos as ha] at h
      obtain rfl : a = x := by injection h
      simp only [modifyFirst, ha, if_true, List.map_cons, List.sum_cons]
      omega
    · rw [List.find?_cons_of_neg as ha] at h
      simp only [modifyFirst, ha, Bool.false_eq_true, if_false, List.map_cons, List.sum_cons]
      have := ih h
      omega

lemma findIdx?_some_get {l : List α} {p : α → Bool} {i : Nat}
    (h : l.findIdx? p = some i) : ∃ x, l[i]? = some x ∧ p x = true := by
  induction l generalizing i with
  | nil => simp at h
  | cons a as ih =>
    rw [List.findIdx?_cons] at h
    by_cases ha : p a = true
    · rw [if_pos ha] at h
      obtain rfl : (0 : Nat) = i := by injection h
      exact ⟨a, by simp, ha⟩
    · rw [if_neg ha, List.findIdx?_succ] at h
      cases hj : as.findIdx? p with
      | none => rw [hj] at h; simp at h
      | some j =>
        rw [hj] at h
        simp only [Option.map_some'] at h
        obtain rfl : j + 1 = i := by injection h
        obtain ⟨x, hx, hpx⟩ := ih hj
        exact ⟨x, by simpa using hx, hpx⟩

lemma map_insertIdx' (g : α → β) (l : List α) (i : Nat) (a : α) :
    (l.insertIdx i a).map g = (l.map g).insertIdx i (g a) := by
  induction l generalizing i with
  | nil => cases i <;> simp
  | cons x xs ih => cases i <;> simp [ih]

lemma map_eraseIdx' (g : α → β) (l : List α) (i : Nat) :
    (l.eraseIdx i).map g = (l.map g).eraseIdx i := by
  induction l generalizing i with
  | nil => simp
  | cons x xs ih => cases i <;> simp [ih]

lemma insertIdx_perm' (l : List α) (i : Nat) (a : α) (h : i ≤ l.length) :
    List.Perm (l.insertIdx i a) (a :: l) := by
  induction l generalizing i with
  | nil =>
    have : i = 0 := by simpa using h
    subst this; simp
  | cons x xs ih =>
    match i with
    | 0 => simp
    | j + 1 =>
      simp only [List.insertIdx_succ_cons]
      exact (List.Perm.cons x (ih j (by simpa using h))).trans (List.Perm.swap a x xs)

lemma not_mem_eraseIdx_of_nodup {l : List α} {i : Nat} {x : α}
    (hn : l.Nodup) (hi : l[i]? = some x) : x ∉ l.eraseIdx i := by
  induction l generalizing i with
  | nil => simp at hi
  | cons a as ih =>
    match i with
    | 0 =>
      obtain rfl : a = x := by simpa using hi
      simpa [List.eraseIdx] using (List.nodup_cons.mp hn).1
    | j + 1 =>
      have hj : as[j]? = some x := by simpa using hi
      have hx_mem : x ∈ as := List.getElem?_mem hj
      have hax : a ≠ x := fun h => (List.nodup_cons.mp hn).1 (h ▸ hx_mem)
      simp only [List.eraseIdx_cons_succ, List.mem_cons]
      rintro (rfl | hmem)
      · exact hax rfl
      · exact ih (List.nodup_cons.mp hn).2 hj hmem

lemma spliceStart_le (len : Nat) (i : Int) : spliceStart len i ≤ len := by
  unfold spliceStart
  split
  · omega
  · exact Nat.min_le_right _ _

lemma spliceStart_coe_nat (len : Nat) (i : Nat) : spliceStart len (i : Int) = min i len := by
  unfold spliceStart
  rw [if_neg (by omega)]
  simp

lemma spliceStart_min_coe (len di : Nat) :
    spliceStart len (min (di : Int) (len : Int)) = min di len := by
  unfold spliceStart
  rw [if_neg (by omega)]
  omega

lemma find?_first_of_nodup_ids {l : List BList} {x : BList}
    (hn : (l.map BList.id).Nodup) (hx : x ∈ l) :
    l.find? (fun y => y.id == x.id) = some x := by
  induction l with
  | nil => simp at hx
  | cons a as ih =>
    have hn' : a.id ∉ as.map BList.id ∧ (as.map BList.id).Nodup := by
      simpa [List.nodup_cons] using hn
    rcases List.mem_cons.mp hx with rfl | hx
    · exact List.find?_cons_of_pos as (by simp)
    · have hne : ¬(a.id == x.id) = true := by
        simp only [beq_iff_eq]
        intro hEq
        apply hn'.1
        rw [hEq]
        exact List.mem_map.mpr ⟨x, hx, rfl⟩
      rw [List.find?_cons_of_neg as hne]
      exact ih hn'.2 hx

lemma any_id_congr {l₁ l₂ : List BList} (h : l₁.map BList.id = l₂.map BList.id) (x : String) :
    l₁.any (fun l => l.id == x) = l₂.any (fun l => l.id == x) := by
  induction l₁ generalizing l₂ with
  | nil =>
    cases l₂ with
    | nil => rfl
    | cons b bs => simp at h
  | cons a as ih =>
    cases l₂ with
    | nil => simp at h
    | cons b bs =>
      simp only [List.map_cons, List.cons.injEq] at h
      simp only [List.any_cons, h.1, ih h.2]

lemma find?_map_of_pred {l : List α} {F : α → α} {p : α → Bool}
    (h : ∀ y, p (F y) = p y) : (l.map F).find? p = (l.find? p).map F := by
  induction l with
  | nil => rfl
  | cons x xs ih =>
    by_cases hx : p x = true
    · rw [List.map_cons, List.find?_cons_of_pos _ (by rw [h]; exact hx),
        List.find?_cons_of_pos _ hx]
      rfl
    · rw [List.map_cons, List.find?_cons_of_neg _ (by rw [h]; exact hx),
        List.find?_cons_of_neg _ hx]
      exact ih

end Helpers

section MoveCardReductions

lemma moveCard_of_src_none {b : Board} {sid did : String} {si di : Int}
    (h : b.lists.find? (fun l => l.id == sid) = none) :
    moveCard b sid did si di = b := by
  unfold moveCard
  rw [h]

lemma moveCard_of_dst_none {b : Board} {sid did : String} {si di : Int}
    (h : b.lists.find? (fun l => l.id == did) = none) :
    moveCard b sid did si di = b := by
  unfold moveCard
  rw [h]
  cases b.lists.find? (fun l => l.id == sid) <;> rfl

lemma moveCard_of_out_of_range {b : Board} {sid did : String} {sl dl : BList}
    (hs : b.lists.find? (fun l => l.id == sid) = some sl)
    (hd : b.lists.find? (fun l => l.id == did) = some dl)
    {si : Int} (hsi : si < 0 ∨ (sl.cards.length : Int) ≤ si) (di : Int) :
    moveCard b sid did si di = b := by
  unfold moveCard
  rw [hs, hd]
  exact if_pos hsi

lemma moveCard_success_ne {b : Board} {sid did : String} {sl dl : BList}
    (hs : b.lists.find? (fun l => l.id == sid) = some sl)
    (hd : b.lists.find? (fun l => l.id == did) = some dl)
    (hne : sid ≠ did)
    {si : Nat} {mc : Card} (hmc : sl.cards[si]? = some mc) (di : Int) :
    moveCard b sid did (si : Int) di =
      { b with lists := (modifyFirst
          (modifyFirst b.lists (fun l => l.id == sid)
            (fun l => { l with cards := (sl.cards.eraseIdx si) }))
          (fun l => l.id == did)
          (fun l => { l with cards :=
            (dl.cards.insertIdx
              (spliceStart dl.cards.length (min di (dl.cards.length : Int))) mc) })) } := by
  have hlt : si < sl.cards.length := (List.getElem?_eq_some_iff.mp hmc).1
  have htn : ((si : Int)).toNat = si := by simp
  unfold moveCard
  rw [hs, hd]
  refine Eq.trans (if_neg (by omega :
    ¬((si : Int) < 0 ∨ (sl.cards.length : Int) ≤ (si : Int)))) ?_
  rw [htn, hmc]
  exact Eq.trans (if_neg (by simpa using hne)) rfl

lemma moveCard_success_same {b : Board} {sid : String} {sl : BList}
    (hs : b.lists.find? (fun l => l.id == sid) = some sl)
    {si : Nat} {mc : Card} (hmc : sl.cards[si]? = some mc) (di : Int) :
    moveCard b sid sid (si : Int) di =
      { b with lists := (modifyFirst b.lists (fun l => l.id == sid)
          (fun l => { l with cards :=
            ((sl.cards.eraseIdx si).insertIdx
              (spliceStart (sl.cards.eraseIdx si).length
                (min di ((sl.cards.eraseIdx si).length : Int))) mc) })) } := by
  have hlt : si < sl.cards.length := (List.getElem?_eq_some_iff.mp hmc).1
  have htn : ((si : Int)).toNat = si := by simp
  unfold moveCard
  rw [hs]
  refine Eq.trans (if_neg (by omega :
    ¬((si : Int) < 0 ∨ (sl.cards.length : Int) ≤ (si : Int)))) ?_
  rw [htn, hmc]
  exact Eq.trans (if_pos (by simp)) rfl

end MoveCardReductions

/-- A concrete demo board mirroring `DEFAULT_BOARD` of src/types/board.ts
(timestamps abstracted to plain strings). -/
def demoCard1 : Card :=
  { id := "card-1", title := "Create interview Kanban", comments := [], createdAt := "t1" }

/-- Second demo card of `DEFAULT_BOARD`. -/
def demoCard2 : Card :=
  { id := "card-2", title := "Review Drag and Drop", comments := [], createdAt := "t2" }

/-- Third demo card of `DEFAULT_BOARD`. -/
def demoCard3 : Card :=
  { id := "card-3", title := "Set up Next.js project", comments := [], createdAt := "t3" }

/-- First demo list (`Todo`) of `DEFAULT_BOARD`. -/
def demoList1 : BList := { id := "list-1", title := "Todo", cards := [demoCard1, demoCard2] }

/-- Second demo list (`In Progress`) of `DEFAULT_BOARD`. -/
def demoList2 : BList := { id := "list-2", title := "In Progress", cards := [demoCard3] }

/-- Third demo list (`Done`) of `DEFAULT_BOARD`. -/
def demoList3 : BList := { id := "list-3", title := "Done", cards := [] }

/-- The demo board of `DEFAULT_BOARD`: three lists, cards [c1,c2],[c3],[]. -/
def demoBoard : Board :=
  { id := "board-1", title := "Demo Board", lists := [demoList1, demoList2, demoList3] }

/-- C5: for every board, `deleteList` with an absent list id, and
`deleteCard` with a card id absent from the named list, leave the board
structurally (hence byte-for-byte) unchanged. -/
theorem deleteAbsent_unchanged (b : Board) (lid lid2 cid : String)
    (h1 : ∀ l ∈ b.lists, l.id ≠ lid)
    (h2 : ∀ l ∈ b.lists, l.id = lid2 → ∀ c ∈ l.cards, c.id ≠ cid) :
    deleteList b lid = b ∧ deleteCard b lid2 cid = b := by
  constructor
  · unfold deleteList
    have hf : b.lists.filter (fun list => !(list.id == lid)) = b.lists := by
      rw [List.filter_eq_self]
      intro a ha
      simp [h1 a ha]
    rw [hf]
  · unfold deleteCard
    have hm : b.lists.map (fun list =>
        if list.id == lid2 then
          { list with cards := list.cards.filter (fun c => !(c.id == cid)) }
        else list) = b.lists := by
      apply map_eq_self_of_forall
      intro l hl
      by_cases hid : (l.id == lid2) = true
      · rw [if_pos hid]
        have hcf : l.cards.filter (fun c => !(c.id == cid)) = l.cards := by
          rw [List.filter_eq_self]
          intro c hc
          simp [h2 l hl (by simpa using hid) c hc]
        rw [hcf]
      · rw [if_neg hid]
    rw [hm]

/-- Witness for C5 at the demo board. -/
theorem deleteAbsent_unchanged_witness :
    deleteList demoBoard "list-99" = demoBoard ∧
    deleteCard demoBoard "list-1" "card-99" = demoBoard :=
  deleteAbsent_unchanged demoBoard "list-99" "list-1" "card-99" (by decide) (by decide)

/-- C7: `handleDragCancel` performs no mutation of the board value — in
particular boards produced by prior hover-committed `moveCard` calls are
passed through unreversed — and only resets the session bookkeeping. -/
theorem handleDragCancel_frame (b : Board) (s : DragSession)
    (ty : Option DragKind) (ev : DragOverEvent) :
    (handleDragCancel b s).1 = b ∧
    (handleDragCancel (handleDragOver b ty ev) s).1 = handleDragOver b ty ev ∧
    (handleDragCancel b s).2 =
      { activeId := none, activeType := none, recentlyMovedToNewContainer := false } :=
  ⟨rfl, rfl, rfl⟩

/-- C9: `addComment` is a no-op when the list id is absent or the card id
is absent from every list named `lid`; when `getCard` finds the card, the
updated board's card carries exactly one appended comment with the
generated id, the fixed author `"User"` and the creation timestamp. -/
theorem addComment_spec (b : Board) (lid cid text nid ts : String) :
    ((∀ l ∈ b.lists, l.id = lid → ∀ c ∈ l.cards, c.id ≠ cid) →
      addComment b lid cid text nid ts = b) ∧
    (∀ card, getCard b lid cid = some card →
      getCard (addComment b lid cid text nid ts) lid cid =
        some { card with comments := card.comments ++
          [{ id := nid, text := text, author := "User", createdAt := ts }] }) := by
  constructor
  · intro h
    have hm : b.lists.map (fun list =>
        if list.id == lid then
          { list with cards := list.cards.map (fun card =>
            if card.id == cid then
              { card with comments := card.comments ++
                [{ id := nid, text := text, author := "User", createdAt := ts }] }
            else card) }
        else list) = b.lists := by
      apply map_eq_self_of_forall
      intro l hl
      by_cases hid : (l.id == lid) = true
      · rw [if_pos hid]
        have hcf : l.cards.map (fun card =>
            if card.id == cid then
              { card with comments := card.comments ++
                [{ id := nid, text := text, author := "User", createdAt := ts }] }
            else card) = l.cards := by
          apply map_eq_self_of_forall
          intro c hc
          rw [if_neg (by simpa using h l hl (by simpa using hid) c hc)]
        rw [hcf]
      · rw [if_neg hid]
    exact congrArg (fun ls => ({ id := b.id, title := b.title, lists := ls } : Board)) hm
  · intro card hcard
    unfold getCard at hcard
    cases hfl : b.lists.find? (fun l => l.id == lid) with
    | none => rw [hfl] at hcard; simp at hcard
    | some L =>
      rw [hfl] at hcard
      simp only [Option.some_bind] at hcard
      have hLlid : (L.id == lid) = true := by simpa using List.find?_some hfl
      have hcid : (card.id == cid) = true := by simpa using List.find?_some hcard
      have hlists : (addComment b lid cid text nid ts).lists
          = b.lists.map (fun list =>
              if list.id == lid then
                { list with cards := list.cards.map (fun c =>
                  if c.id == cid then
                    { c with comments := c.comments ++
                      [{ id := nid, text := text, author := "User", createdAt := ts }] }
                  else c) }
              else list) := rfl
      have hfind1 : (addComment b lid cid text nid ts).lists.find? (fun l => l.id == lid)
          = some { L with cards := L.cards.map (fun c =>
              if c.id == cid then
                { c with comments := c.comments ++
                  [{ id := nid, text := text, author := "User", createdAt := ts }] }
              else c) } := by
        rw [hlists, find?_map_of_pred (fun y => by
          by_cases hy : (y.id == lid) = true <;> simp [hy]), hfl]
        simp only [Option.map_some']
        rw [if_pos hLlid]
      unfold getCard
      rw [hfind1]
      simp only [Option.some_bind]
      rw [find?_map_of_pred (fun y => by
        by_cases hy : (y.id == cid) = true <;> simp [hy]), hcard]
      simp only [Option.map_some']
      rw [if_pos hcid]

/-- Witness for C9 at the demo board: Scenario C (`addComment` with an
unknown card id leaves the board unchanged) and a successful append. -/
theorem addComment_spec_witness :
    addComment demoBoard "list-1" "card-99" "hi" "id-9" "t9" = demoBoard ∧
    getCard (addComment demoBoard "list-1" "card-1" "hi" "id-9" "t9") "list-1" "card-1" =
      some { demoCard1 with comments := demoCard1.comments ++
        [{ id := "id-9", text := "hi", author := "User", createdAt := "t9" }] } :=
  ⟨(addComment_spec demoBoard "list-1" "card-99" "hi" "id-9" "t9").1 (by decide),
   (addComment_spec demoBoard "list-1" "card-1" "hi" "id-9" "t9").2 demoCard1 (by decide)⟩

/-- C2 counterexample: on the demo board (3 lists), `moveList 3 0` does
not leave the board unchanged — `splice(3, 1)` removes nothing, so
`undefined` is inserted at index 0 and the lists array grows. -/
theorem moveList_oob_changes_board : moveList demoBoard 3 0 ≠ demoBoard.toJS := by
  decide

/-- C2 amended: when `fromIndex ≥ lists.length`, `moveList` does not
leave the board unchanged: no list is removed and an `undefined` slot is
inserted at the splice-normalized `toIndex`, growing the sequence by
one. -/
theorem moveList_oob_spec (b : Board) (fromIndex toIndex : Int)
    (h : (b.lists.length : Int) ≤ fromIndex) :
    (moveList b fromIndex toIndex).lists
      = (b.lists.map some).insertIdx (spliceStart b.lists.length toIndex) none ∧
    (moveList b fromIndex toIndex).lists.length = b.lists.length + 1 := by
  have hstart : spliceStart b.lists.length fromIndex = b.lists.length := by
    unfold spliceStart
    rw [if_neg (by omega)]
    omega
  have hmoved : b.lists[spliceStart b.lists.length fromIndex]? = none := by
    rw [hstart]
    exact List.getElem?_eq_none (le_refl _)
  have herase : b.lists.eraseIdx (spliceStart b.lists.length fromIndex) = b.lists := by
    rw [hstart]
    exact List.eraseIdx_of_length_le (le_refl _)
  have hred : (moveList b fromIndex toIndex).lists
      = ((b.lists.eraseIdx (spliceStart b.lists.length fromIndex)).map some).insertIdx
        (spliceStart ((b.lists.eraseIdx
          (spliceStart b.lists.length fromIndex)).map some).length toIndex)
        (b.lists[spliceStart b.lists.length fromIndex]?) := rfl
  rw [hred]
  simp only [herase, hmoved, List.length_map]
  refine ⟨trivial, ?_⟩
  rw [List.length_insertIdx _ _ (by simpa using spliceStart_le b.lists.length toIndex)]
  simp

/-- Witness for the amended C2 at the demo board. -/
theorem moveList_oob_spec_witness :
    (moveList demoBoard 3 0).lists
      = (demoBoard.lists.map some).insertIdx (spliceStart demoBoard.lists.length 0) none ∧
    (moveList demoBoard 3 0).lists.length = demoBoard.lists.length + 1 :=
  moveList_oob_spec demoBoard 3 0 (by decide)

/-- C3: for in-range `fromIndex`/`toIndex`, `moveList` removes the list at
`fromIndex` and reinserts it at `min(toIndex, length-1)` in the shortened
sequence, preserving the multiset of list ids and the length, with the
moved list ending at index `min(toIndex, length-1)`. -/
theorem moveList_valid_spec (b : Board) (fi ti : Nat)
    (hfi : fi < b.lists.length) (hti : ti < b.lists.length) (mv : BList)
    (hmv : b.lists[fi]? = some mv) :
    (moveList b (fi : Int) (ti : Int)).lists
        = ((b.lists.eraseIdx fi).insertIdx (min ti (b.lists.length - 1)) mv).map some ∧
    List.Perm (((b.lists.eraseIdx fi).insertIdx (min ti (b.lists.length - 1)) mv).map BList.id)
      (b.lists.map BList.id) ∧
    ((b.lists.eraseIdx fi).insertIdx (min ti (b.lists.length - 1)) mv).length
      = b.lists.length ∧
    ((b.lists.eraseIdx fi).insertIdx (min ti (b.lists.length - 1)) mv)[min ti
      (b.lists.length - 1)]? = some mv := by
  obtain ⟨hfi', hget⟩ := List.getElem?_eq_some_iff.mp hmv
  have hstart : spliceStart b.lists.length (fi : Int) = fi := by
    rw [spliceStart_coe_nat]
    omega
  have hlenE : (b.lists.eraseIdx fi).length = b.lists.length - 1 := by
    rw [List.length_eraseIdx]
    simp [hfi]
  have hposle : min ti (b.lists.length - 1) ≤ (b.lists.eraseIdx fi).length := by omega
  have hsplit : b.lists = b.lists.take fi ++ mv :: b.lists.drop (fi + 1) := by
    conv_lhs => rw [← List.take_append_drop fi b.lists]
    rw [← List.getElem_cons_drop b.lists fi hfi, hget]
  have hperm : List.Perm ((b.lists.eraseIdx fi).insertIdx (min ti (b.lists.length - 1)) mv)
      b.lists := by
    refine (insertIdx_perm' _ _ _ hposle).trans ?_
    rw [List.eraseIdx_eq_take_drop_succ]
    conv_rhs => rw [hsplit]
    exact List.perm_middle.symm
  have hpos : spliceStart ((b.lists.eraseIdx fi).map some).length (ti : Int)
      = min ti (b.lists.length - 1) := by
    rw [List.length_map, hlenE, spliceStart_coe_nat]
  refine ⟨?_, hperm.map BList.id, ?_, ?_⟩
  · have hred : (moveList b (fi : Int) (ti : Int)).lists
        = ((b.lists.eraseIdx (spliceStart b.lists.length (fi : Int))).map some).insertIdx
          (spliceStart ((b.lists.eraseIdx
            (spliceStart b.lists.length (fi : Int))).map some).length (ti : Int))
          (b.lists[spliceStart b.lists.length (fi : Int)]?) := rfl
    rw [hred, hstart, hmv, hpos, ← map_insertIdx']
  · rw [List.length_insertIdx _ _ hposle]
    omega
  · refine List.getElem?_eq_some_iff.mpr ⟨?_, List.getElem_insertIdx_self _ _ _ hposle⟩
    rw [List.length_insertIdx _ _ hposle]
    omega

/-- C1: `moveCard` returns the unchanged board when either list id is
absent or `sourceIndex` is outside `[0, sourceList.cards.length)`; on
success with distinct lists it removes the card at `sourceIndex` from the
source list and inserts it into the destination list at
`min(destIndex, destList.cards.length)`. -/
theorem moveCard_spec (b : Board) (sid did : String) :
    (∀ si di : Int,
      (b.lists.find? (fun l => l.id == sid) = none ∨
        b.lists.find? (fun l => l.id == did) = none) →
      moveCard b sid did si di = b) ∧
    (∀ (sl : BList) (si di : Int), b.lists.find? (fun l => l.id == sid) = some sl →
      (si < 0 ∨ (sl.cards.length : Int) ≤ si) →
      moveCard b sid did si di = b) ∧
    (∀ (sl dl : BList) (si di : Nat) (mc : Card), sid ≠ did →
      b.lists.find? (fun l => l.id == sid) = some sl →
      b.lists.find? (fun l => l.id == did) = some dl →
      sl.cards[si]? = some mc →
      (moveCard b sid did (si : Int) (di : Int)).lists.find? (fun l => l.id == sid)
          = some { sl with cards := (sl.cards.eraseIdx si) } ∧
      (moveCard b sid did (si : Int) (di : Int)).lists.find? (fun l => l.id == did)
          = some { dl with cards := (dl.cards.insertIdx (min di dl.cards.length) mc) }) := by
  refine ⟨?_, ?_, ?_⟩
  · intro si di h
    rcases h with h | h
    · exact moveCard_of_src_none h
    · exact moveCard_of_dst_none h
  · intro sl si di hs hrange
    cases hd : b.lists.find? (fun l => l.id == did) with
    | none => exact moveCard_of_dst_none hd
    | some dl => exact moveCard_of_out_of_range hs hd hrange di
  · intro sl dl si di mc hne hs hd hmc
    have hsp : ((sl.id == sid) = true) := by simpa using List.find?_some hs
    have hdp : ((dl.id == did) = true) := by simpa using List.find?_some hd
    have hlists : (moveCard b sid did (si : Int) (di : Int)).lists
        = modifyFirst
            (modifyFirst b.lists (fun l => l.id == sid)
              (fun l => { l with cards := (sl.cards.eraseIdx si) }))
            (fun l => l.id == did)
            (fun l => { l with cards :=
              (dl.cards.insertIdx
                (spliceStart dl.cards.length
                  (min (di : Int) (dl.cards.length : Int))) mc) }) := by
      rw [moveCard_success_ne hs hd hne hmc (di : Int)]
    have hdisj1 : ∀ y : BList, (y.id == did) = true → (y.id == sid) = false := by
      intro y hy
      have hy' : y.id = did := by simpa using hy
      rw [beq_eq_false_iff_ne, hy']
      exact fun hc => hne hc.symm
    have hdisj2 : ∀ y : BList, (y.id == sid) = true → (y.id == did) = false := by
      intro y hy
      have hy' : y.id = sid := by simpa using hy
      rw [beq_eq_false_iff_ne, hy']
      exact hne
    constructor
    · rw [hlists, find?_modifyFirst_other (by exact fun y => rfl) hdisj1,
        find?_modifyFirst_self hs (by simpa using hsp)]
    · rw [hlists, find?_modifyFirst_self
        (by rw [find?_modifyFirst_other (by exact fun y => rfl) hdisj2]; exact hd)
        (by simpa using hdp)]
      rw [spliceStart_min_coe]

/-- Witness for C1: Scenario A — `moveCard(A, B, 0, 1)` on
`A = [c1, c2]`, `B = [c3]` yields `A = [c2]`, `B = [c3, c1]`. -/
theorem moveCard_spec_witness :
    (moveCard demoBoard "list-1" "list-2" 0 1).lists.find? (fun l => l.id == "list-1")
        = some { demoList1 with cards := [demoCard2] } ∧
    (moveCard demoBoard "list-1" "list-2" 0 1).lists.find? (fun l => l.id == "list-2")
        = some { demoList2 with cards := [demoCard3, demoCard1] } := by
  have h := (moveCard_spec demoBoard "list-1" "list-2").2.2 demoList1 demoList2 0 1 demoCard1
    (by decide) (by decide) (by decide) (by decide)
  simp only [Nat.cast_zero, Nat.cast_one] at h
  exact ⟨h.1.trans (by decide), h.2.trans (by decide)⟩

/-- C10: a same-list `moveCard` clamps `destIndex` against the list length
after the removal (original length minus one): the named list's cards
become `(cards.eraseIdx si).insertIdx (min di (len-1)) mc` — so the
relative order of the remaining cards is preserved — and any
`di ≥ len - 1` appends the moved card at the last position. -/
theorem moveCard_sameList_clamp (b : Board) (lid : String) (sl : BList)
    (si di : Nat) (mc : Card)
    (hs : b.lists.find? (fun l => l.id == lid) = some sl)
    (hmc : sl.cards[si]? = some mc) :
    (moveCard b lid lid (si : Int) (di : Int)).lists.find? (fun l => l.id == lid)
        = some { sl with cards :=
            ((sl.cards.eraseIdx si).insertIdx (min di (sl.cards.length - 1)) mc) } ∧
    (sl.cards.length - 1 ≤ di →
      (moveCard b lid lid (si : Int) (di : Int)).lists.find? (fun l => l.id == lid)
        = some { sl with cards := (sl.cards.eraseIdx si ++ [mc]) }) := by
  have hlt : si < sl.cards.length := (List.getElem?_eq_some_iff.mp hmc).1
  have hlenE : (sl.cards.eraseIdx si).length = sl.cards.length - 1 := by
    rw [List.length_eraseIdx]
    simp [hlt]
  have hsp : ((sl.id == lid) = true) := by simpa using List.find?_some hs
  have hlists : (moveCard b lid lid (si : Int) (di : Int)).lists
      = modifyFirst b.lists (fun l => l.id == lid)
          (fun l => { l with cards :=
            ((sl.cards.eraseIdx si).insertIdx
              (spliceStart (sl.cards.eraseIdx si).length
                (min (di : Int) ((sl.cards.eraseIdx si).length : Int))) mc) }) := by
    rw [moveCard_success_same hs hmc (di : Int)]
  have hmain : (moveCard b lid lid (si : Int) (di : Int)).lists.find? (fun l => l.id == lid)
      = some { sl with cards :=
          ((sl.cards.eraseIdx si).insertIdx (min di (sl.cards.length - 1)) mc) } := by
    rw [hlists, find?_modifyFirst_self hs (by simpa using hsp), spliceStart_min_coe, hlenE]
  refine ⟨hmain, fun hdi => ?_⟩
  rw [hmain]
  have : min di (sl.cards.length - 1) = (sl.cards.eraseIdx si).length := by omega
  rw [this, List.insertIdx_length_self]

/-- C4: every successful `moveCard` (both list ids found, `sourceIndex` in
range) conserves the total card count over the whole board, and the summed
count of the source and destination lists, whether those are the same
list or different ones. -/
theorem moveCard_conservation (b : Board) (sid did : String) (sl dl : BList)
    (si : Nat) (di : Int) (mc : Card)
    (hs : b.lists.find? (fun l => l.id == sid) = some sl)
    (hd : b.lists.find? (fun l => l.id == did) = some dl)
    (hmc : sl.cards[si]? = some mc) :
    totalCards (moveCard b sid did (si : Int) di) = totalCards b ∧
    cardsOf (moveCard b sid did (si : Int) di) sid
        + cardsOf (moveCard b sid did (si : Int) di) did
      = cardsOf b sid + cardsOf b did := by
  have hlt : si < sl.cards.length := (List.getElem?_eq_some_iff.mp hmc).1
  have hsp : (sl.id == sid) = true := by simpa using List.find?_some hs
  have herase_len : (sl.cards.eraseIdx si).length = sl.cards.length - 1 := by
    rw [List.length_eraseIdx]
    simp [hlt]
  by_cases hsd : sid = did
  · subst hsd
    rw [hs] at hd
    obtain rfl : sl = dl := by injection hd
    have hposle : spliceStart (sl.cards.eraseIdx si).length
        (min di ((sl.cards.eraseIdx si).length : Int)) ≤ (sl.cards.eraseIdx si).length :=
      spliceStart_le _ _
    have hnew_len : ((sl.cards.eraseIdx si).insertIdx
        (spliceStart (sl.cards.eraseIdx si).length
          (min di ((sl.cards.eraseIdx si).length : Int))) mc).length = sl.cards.length := by
      rw [List.length_insertIdx _ _ hposle]
      omega
    have hlists : (moveCard b sid sid (si : Int) di).lists
        = modifyFirst b.lists (fun l => l.id == sid)
            (fun l => { l with cards :=
              ((sl.cards.eraseIdx si).insertIdx
                (spliceStart (sl.cards.eraseIdx si).length
                  (min di ((sl.cards.eraseIdx si).length : Int))) mc) }) := by
      rw [moveCard_success_same hs hmc di]
    have htot : totalCards (moveCard b sid sid (si : Int) di)
        = ((modifyFirst b.lists (fun l => l.id == sid)
            (fun l => { l with cards :=
              ((sl.cards.eraseIdx si).insertIdx
                (spliceStart (sl.cards.eraseIdx si).length
                  (min di ((sl.cards.eraseIdx si).length : Int))) mc) })).map
              (fun l => l.cards.length)).sum := by
      rw [moveCard_success_same hs hmc di]
      rfl
    have hsum := sum_map_modifyFirst (fun l : BList => l.cards.length)
      (fun l => { l with cards :=
        ((sl.cards.eraseIdx si).insertIdx
          (spliceStart (sl.cards.eraseIdx si).length
            (min di ((sl.cards.eraseIdx si).length : Int))) mc) }) hs
    dsimp only at hsum
    have htotb : totalCards b = (b.lists.map (fun l => l.cards.length)).sum := rfl
    have hfind : (moveCard b sid sid (si : Int) di).lists.find? (fun l => l.id == sid)
        = some { sl with cards :=
            ((sl.cards.eraseIdx si).insertIdx
              (spliceStart (sl.cards.eraseIdx si).length
                (min di ((sl.cards.eraseIdx si).length : Int))) mc) } := by
      rw [hlists]
      exact find?_modifyFirst_self hs (by simpa using hsp)
    have hcR : cardsOf (moveCard b sid sid (si : Int) di) sid
        = ((sl.cards.eraseIdx si).insertIdx
            (spliceStart (sl.cards.eraseIdx si).length
              (min di ((sl.cards.eraseIdx si).length : Int))) mc).length := by
      unfold cardsOf
      rw [hfind]
    have hcb : cardsOf b sid = sl.cards.length := by
      unfold cardsOf
      rw [hs]
    constructor
    · rw [htot, htotb]
      omega
    · rw [hcR, hcb, hnew_len]
  · have hne : sid ≠ did := hsd
    have hdp : (dl.id == did) = true := by simpa using List.find?_some hd
    have hdisj1 : ∀ y : BList, (y.id == did) = true → (y.id == sid) = false := by
      intro y hy
      have hy' : y.id = did := by simpa using hy
      rw [beq_eq_false_iff_ne, hy']
      exact fun hc => hne hc.symm
    have hdisj2 : ∀ y : BList, (y.id == sid) = true → (y.id == did) = false := by
      intro y hy
      have hy' : y.id = sid := by simpa using hy
      rw [beq_eq_false_iff_ne, hy']
      exact hne
    have hposle : spliceStart dl.cards.length (min di (dl.cards.length : Int))
        ≤ dl.cards.length := spliceStart_le _ _
    have hinsert_len : (dl.cards.insertIdx
        (spliceStart dl.cards.length (min di (dl.cards.length : Int))) mc).length
        = dl.cards.length + 1 := List.length_insertIdx _ _ hposle
    have hlists : (moveCard b sid did (si : Int) di).lists
        = modifyFirst
            (modifyFirst b.lists (fun l => l.id == sid)
              (fun l => { l with cards := (sl.cards.eraseIdx si) }))
            (fun l => l.id == did)
            (fun l => { l with cards :=
              (dl.cards.insertIdx
                (spliceStart dl.cards.length (min di (dl.cards.length : Int))) mc) }) := by
      rw [moveCard_success_ne hs hd hne hmc di]
    have hinner_d : (modifyFirst b.lists (fun l => l.id == sid)
          (fun l => { l with cards := (sl.cards.eraseIdx si) })).find?
          (fun l => l.id == did) = some dl := by
      rw [find?_modifyFirst_other (by exact fun y => rfl) hdisj2]
      exact hd
    have htot : totalCards (moveCard b sid did (si : Int) di)
        = ((modifyFirst
            (modifyFirst b.lists (fun l => l.id == sid)
              (fun l => { l with cards := (sl.cards.eraseIdx si) }))
            (fun l => l.id == did)
            (fun l => { l with cards :=
              (dl.cards.insertIdx
                (spliceStart dl.cards.length (min di (dl.cards.length : Int))) mc) })).map
              (fun l => l.cards.length)).sum := by
      rw [moveCard_success_ne hs hd hne hmc di]
      rfl
    have hsum1 := sum_map_modifyFirst (fun l : BList => l.cards.length)
      (fun l => { l with cards := (sl.cards.eraseIdx si) }) hs
    have hsum2 := sum_map_modifyFirst (fun l : BList => l.cards.length)
      (fun l => { l with cards :=
        (dl.cards.insertIdx
          (spliceStart dl.cards.length (min di (dl.cards.length : Int))) mc) }) hinner_d
    dsimp only at hsum1 hsum2
    have htotb : totalCards b = (b.lists.map (fun l => l.cards.length)).sum := rfl
    have hfs : (moveCard b sid did (si : Int) di).lists.find? (fun l => l.id == sid)
        = some { sl with cards := (sl.cards.eraseIdx si) } := by
      rw [hlists, find?_modifyFirst_other (by exact fun y => rfl) hdisj1]
      exact find?_modifyFirst_self hs (by simpa using hsp)
    have hfd : (moveCard b sid did (si : Int) di).lists.find? (fun l => l.id == did)
        = some { dl with cards :=
            (dl.cards.insertIdx
              (spliceStart dl.cards.length (min di (dl.cards.length : Int))) mc) } := by
      rw [hlists]
      exact find?_modifyFirst_self hinner_d (by simpa using hdp)
    have hcRs : cardsOf (moveCard b sid did (si : Int) di) sid
        = (sl.cards.eraseIdx si).length := by
      unfold cardsOf
      rw [hfs]
    have hcRd : cardsOf (moveCard b sid did (si : Int) di) did
        = (dl.cards.insertIdx
            (spliceStart dl.cards.length (min di (dl.cards.length : Int))) mc).length := by
      unfold cardsOf
      rw [hfd]
    have hcbs : cardsOf b sid = sl.cards.length := by
      unfold cardsOf
      rw [hs]
    have hcbd : cardsOf b did = dl.cards.length := by
      unfold cardsOf
      rw [hd]
    constructor
    · rw [htot, htotb]
      omega
    · rw [hcRs, hcRd, hcbs, hcbd, hinsert_len]
      omega

/-- Witness for C4 at the demo board: moving `c1` from `list-1` to
`list-2` keeps 3 cards in total, and 3 over the two lists involved. -/
theorem moveCard_conservation_witness :
    totalCards (moveCard demoBoard "list-1" "list-2" 0 0) = totalCards demoBoard ∧
    cardsOf (moveCard demoBoard "list-1" "list-2" 0 0) "list-1"
        + cardsOf (moveCard demoBoard "list-1" "list-2" 0 0) "list-2"
      = cardsOf demoBoard "list-1" + cardsOf demoBoard "list-2" := by
  have h := moveCard_conservation demoBoard "list-1" "list-2" demoList1 demoList2 0 0 demoCard1
    (by decide) (by decide) (by decide)
  simpa using h

/-- Witness for C10: on the demo board's first list `[c1, c2]`,
`moveCard("list-1","list-1",0,5)` clamps 5 to the post-removal length 1
and yields `[c2, c1]`. -/
theorem moveCard_sameList_clamp_witness :
    (moveCard demoBoard "list-1" "list-1" 0 5).lists.find? (fun l => l.id == "list-1")
      = some { demoList1 with cards := [demoCard2, demoCard1] } := by
  have h := (moveCard_sameList_clamp demoBoard "list-1" demoList1 0 5 demoCard1
    (by decide) (by decide)).2 (by decide)
  simp only [Nat.cast_zero, Nat.cast_ofNat] at h
  exact h.trans (by decide)

/-- Witness for C3: Scenario B — `moveList 0 2` on `[L1, L2, L3]` yields
`[L2, L3, L1]`. -/
theorem moveList_valid_spec_witness :
    (moveList demoBoard 0 2).lists = [some demoList2, some demoList3, some demoList1] := by
  have h := (moveList_valid_spec demoBoard 0 2 (by decide) (by decide) demoList1 (by decide)).1
  simp only [Nat.cast_ofNat, Nat.cast_zero] at h
  rw [h]
  decide

/-- C8: when the active drag kind is `list`, the collision strategy
restricts the candidates to the list containers, so — provided the
geometric `closestCenter` primitive picks among the candidates it is
given — every returned collision id is a list id and never a card id. -/
theorem collision_list_scope
    (closestCenter pointerWithin rectIntersection : List DroppableContainer → List Collision)
    (hcc : ∀ cs : List DroppableContainer, ∀ col ∈ closestCenter cs, ∃ c ∈ cs, col.id = c.id)
    (activeId : Option String) (listIds : List String) (lists : List BList)
    (droppableContainers : List DroppableContainer)
    (lastOverId : Option String) (recentlyMoved : Bool)
    (hdisjoint : ∀ l ∈ lists, ∀ c ∈ l.cards, c.id ∉ listIds) :
    ∀ col ∈ (collisionDetectionStrategy closestCenter pointerWithin rectIntersection
        (some DragKind.list) activeId listIds lists droppableContainers
        lastOverId recentlyMoved).1,
      col.id ∈ listIds ∧ ∀ l ∈ lists, ∀ c ∈ l.cards, c.id ≠ col.id := by
  intro col hcol
  have hred : (collisionDetectionStrategy closestCenter pointerWithin rectIntersection
        (some DragKind.list) activeId listIds lists droppableContainers
        lastOverId recentlyMoved).1
      = closestCenter (droppableContainers.filter (fun c => listIds.contains c.id)) := by
    unfold collisionDetectionStrategy
    rw [if_pos rfl]
  rw [hred] at hcol
  obtain ⟨c, hc, hid⟩ := hcc _ col hcol
  have hcin : c.id ∈ listIds := by
    have := List.of_mem_filter hc
    simpa using this
  constructor
  · rw [hid]
    exact hcin
  · intro l hl cd hcd heq
    apply hdisjoint l hl cd hcd
    rw [heq, hid]
    exact hcin

/-- Witness for C8: a concrete `closestCenter` returning all of its
candidates, on the demo board, with one card container and one list
container among the droppables — the single returned collision is the
list id `list-2`, not a card id. -/
theorem collision_list_scope_witness :
    ({ id := "list-2" } : Collision).id ∈ ["list-1", "list-2", "list-3"] ∧
      ∀ l ∈ demoBoard.lists, ∀ c ∈ l.cards, c.id ≠ ({ id := "list-2" } : Collision).id :=
  collision_list_scope (fun cs => cs.map (fun c => { id := c.id }))
    (fun _ => []) (fun _ => [])
    (by intro cs col hcol
        obtain ⟨c, hc, heq⟩ := List.mem_map.mp hcol
        exact ⟨c, hc, by rw [← heq]⟩)
    (some "list-1") ["list-1", "list-2", "list-3"]
    demoBoard.lists [{ id := "card-1" }, { id := "list-2" }] none false (by decide)
    { id := "list-2" } (by decide)

section DragOverReductions

variable {b : Board} {ty : Option DragKind} {ev : DragOverEvent}

lemma handleDragOver_red_none (h : ev.overId = none) : handleDragOver b ty ev = b := by
  unfold handleDragOver
  rw [h]

lemma handleDragOver_red_not_card {oid : String} (h : ev.overId = some oid)
    (hty : ty ≠ some DragKind.card) : handleDragOver b ty ev = b := by
  unfold handleDragOver
  rw [h]
  exact if_pos hty

lemma handleDragOver_red_fc_none {oid : String} (h : ev.overId = some oid)
    (hfa : findContainer b ev.activeId = none) : handleDragOver b ty ev = b := by
  unfold handleDragOver
  rw [h]
  by_cases hty : ty ≠ some DragKind.card
  · exact if_pos hty
  · refine Eq.trans (if_neg hty) ?_
    rw [hfa]

lemma handleDragOver_red_fc_none2 {oid : String} (h : ev.overId = some oid)
    (hfo : findContainer b oid = none) : handleDragOver b ty ev = b := by
  unfold handleDragOver
  rw [h]
  by_cases hty : ty ≠ some DragKind.card
  · exact if_pos hty
  · refine Eq.trans (if_neg hty) ?_
    rw [hfo]
    cases findContainer b ev.activeId <;> rfl

lemma handleDragOver_red_same {oid c : String} (h : ev.overId = some oid)
    (hfa : findContainer b ev.activeId = some c)
    (hfo : findContainer b oid = some c) : handleDragOver b ty ev = b := by
  unfold handleDragOver
  rw [h]
  by_cases hty : ty ≠ some DragKind.card
  · exact if_pos hty
  · refine Eq.trans (if_neg hty) ?_
    rw [hfa, hfo]
    exact if_pos (by simp)

lemma handleDragOver_red_src_none {oid ac oc : String} (h : ev.overId = some oid)
    (hfa : findContainer b ev.activeId = some ac)
    (hfo : findContainer b oid = some oc)
    (hsl : b.lists.find? (fun l => l.id == ac) = none) : handleDragOver b ty ev = b := by
  unfold handleDragOver
  rw [h]
  by_cases hty : ty ≠ some DragKind.card
  · exact if_pos hty
  · refine Eq.trans (if_neg hty) ?_
    rw [hfa, hfo]
    by_cases hac : (ac == oc) = true
    · exact if_pos hac
    · refine Eq.trans (if_neg hac) ?_
      rw [hsl]

lemma handleDragOver_red_dst_none {oid ac oc : String} (h : ev.overId = some oid)
    (hfa : findContainer b ev.activeId = some ac)
    (hfo : findContainer b oid = some oc)
    (hdl : b.lists.find? (fun l => l.id == oc) = none) : handleDragOver b ty ev = b := by
  unfold handleDragOver
  rw [h]
  by_cases hty : ty ≠ some DragKind.card
  · exact if_pos hty
  · refine Eq.trans (if_neg hty) ?_
    rw [hfa, hfo]
    by_cases hac : (ac == oc) = true
    · exact if_pos hac
    · refine Eq.trans (if_neg hac) ?_
      rw [hdl]
      cases b.lists.find? (fun l => l.id == ac) <;> rfl

lemma handleDragOver_red_idx_none {oid ac oc : String} {sourceList destList : BList}
    (h : ev.overId = some oid)
    (hfa : findContainer b ev.activeId = some ac)
    (hfo : findContainer b oid = some oc)
    (hsl : b.lists.find? (fun l => l.id == ac) = some sourceList)
    (hdl : b.lists.find? (fun l => l.id == oc) = some destList)
    (hai : sourceList.cards.findIdx? (fun c => c.id == ev.activeId) = none) :
    handleDragOver b ty ev = b := by
  unfold handleDragOver
  rw [h]
  by_cases hty : ty ≠ some DragKind.card
  · exact if_pos hty
  · refine Eq.trans (if_neg hty) ?_
    rw [hfa, hfo]
    by_cases hac : (ac == oc) = true
    · exact if_pos hac
    · refine Eq.trans (if_neg hac) ?_
      simp only [hsl, hdl, hai]

lemma handleDragOver_red_move {oid ac oc : String} {sourceList destList : BList} {ai : Nat}
    (h : ev.overId = some oid) (hty : ty = some DragKind.card)
    (hfa : findContainer b ev.activeId = some ac)
    (hfo : findContainer b oid = some oc)
    (hne : (ac == oc) = false)
    (hsl : b.lists.find? (fun l => l.id == ac) = some sourceList)
    (hdl : b.lists.find? (fun l => l.id == oc) = some destList)
    (hai : sourceList.cards.findIdx? (fun c => c.id == ev.activeId) = some ai) :
    handleDragOver b ty ev = moveCard b ac oc (ai : Int)
      (if b.lists.any (fun l => l.id == oid) then (destList.cards.length : Int)
       else
         match destList.cards.findIdx? (fun c => c.id == oid) with
         | some overIndex => (overIndex : Int) + (if ev.isBelowOverItem then 1 else 0)
         | none => (destList.cards.length : Int)) := by
  unfold handleDragOver
  rw [h]
  refine Eq.trans (if_neg (by simp [hty])) ?_
  rw [hfa, hfo]
  refine Eq.trans (if_neg (by simp [hne])) ?_
  simp only [hsl, hdl, hai]

end DragOverReductions

/-- The list ids of a board, in display order. -/
def listIdsOf (b : Board) : List String := b.lists.map BList.id

/-- All card ids of a board, grouped by list, in order. -/
def cardIdsOf (b : Board) : List String :=
  (b.lists.map (fun l => l.cards.map Card.id)).flatten

/-- The id-uniqueness invariants of the data model (spec, section 3):
list ids unique within the board, card ids unique within the board, and —
since `findContainer` resolves list ids before scanning cards — no card id
coincides with a list id. -/
def WF (b : Board) : Prop :=
  (listIdsOf b).Nodup ∧ (cardIdsOf b).Nodup ∧ ∀ x ∈ cardIdsOf b, x ∉ listIdsOf b

lemma mem_cardIdsOf {b : Board} {l : BList} {c : Card}
    (hl : l ∈ b.lists) (hc : c ∈ l.cards) : c.id ∈ cardIdsOf b := by
  unfold cardIdsOf
  exact List.mem_flatten_of_mem (List.mem_map.mpr ⟨l, hl, rfl⟩)
    (List.mem_map.mpr ⟨c, hc, rfl⟩)

lemma nodup_card_ids_of_mem {b : Board} (hwf : (cardIdsOf b).Nodup) {l : BList}
    (hl : l ∈ b.lists) : (l.cards.map Card.id).Nodup :=
  (List.nodup_flatten.mp hwf).1 _ (List.mem_map.mpr ⟨l, hl, rfl⟩)

lemma disjoint_card_ids {b : Board} (hwf : (cardIdsOf b).Nodup) {l₁ l₂ : BList}
    (h1 : l₁ ∈ b.lists) (h2 : l₂ ∈ b.lists) (hne : l₁ ≠ l₂) {x : String}
    (hx1 : x ∈ l₁.cards.map Card.id) (hx2 : x ∈ l₂.cards.map Card.id) : False := by
  have hpw := (List.nodup_flatten.mp hwf).2
  rw [List.pairwise_map] at hpw
  have hsym : Symmetric (fun a b : BList =>
      List.Disjoint (a.cards.map Card.id) (b.cards.map Card.id)) :=
    fun _ _ h => h.symm
  exact (hpw.forall hsym h1 h2 hne) hx1 hx2

/-- After a cross-list `moveCard` — realized as two `modifyFirst` passes —
the first (and only) list whose cards contain `x` is the updated
destination, provided the updated destination cards contain `x`, the
updated source cards do not, and no untouched list does. -/
lemma find?_hasCard_after (lists : List BList) (sid did x : String) (sl dl : BList)
    (newS newD : List Card)
    (hnodup : (lists.map BList.id).Nodup)
    (hs : lists.find? (fun l => l.id == sid) = some sl)
    (hd : lists.find? (fun l => l.id == did) = some dl)
    (hne : sid ≠ did)
    (hxD : x ∈ newD.map Card.id)
    (hxS : x ∉ newS.map Card.id)
    (hxOther : ∀ y ∈ lists, y ≠ sl → y ≠ dl → x ∉ y.cards.map Card.id) :
    (modifyFirst (modifyFirst lists (fun l => l.id == sid)
        (fun l => { l with cards := newS }))
      (fun l => l.id == did) (fun l => { l with cards := newD })).find?
        (fun l => l.cards.any (fun c => c.id == x)) = some { dl with cards := newD } := by
  have hslid : sl.id = sid := by simpa using List.find?_some hs
  have hdlid : dl.id = did := by simpa using List.find?_some hd
  have hdisj2 : ∀ y : BList, ((y.id == sid) = true) → ((y.id == did) = false) := by
    intro y hy
    have hy' : y.id = sid := by simpa using hy
    rw [beq_eq_false_iff_ne, hy']
    exact hne
  have hnotin : ∀ y : BList, x ∉ y.cards.map Card.id →
      (y.cards.any (fun c => c.id == x)) = false := by
    intro y hyx
    rw [List.any_eq_false]
    intro c hc hcx
    exact hyx (List.mem_map.mpr ⟨c, hc, by simpa using hcx⟩)
  obtain ⟨u, v, hluv, hu, hmod⟩ := modifyFirst_split hs
  have hinner : modifyFirst lists (fun l => l.id == sid) (fun l => { l with cards := newS })
      = u ++ { sl with cards := newS } :: v := hmod _
  have hfind_inner : (modifyFirst lists (fun l => l.id == sid)
      (fun l => { l with cards := newS })).find? (fun l => l.id == did) = some dl := by
    rw [find?_modifyFirst_other (by exact fun y => rfl) hdisj2]
    exact hd
  obtain ⟨u2, v2, hluv2, hu2, hmod2⟩ := modifyFirst_split hfind_inner
  have hfinal : modifyFirst (modifyFirst lists (fun l => l.id == sid)
      (fun l => { l with cards := newS }))
      (fun l => l.id == did) (fun l => { l with cards := newD })
      = u2 ++ { dl with cards := newD } :: v2 := hmod2 _
  rw [hfinal]
  have hcur : ((({ dl with cards := newD } : BList)).cards.any (fun c => c.id == x)) = true := by
    rw [List.any_eq_true]
    obtain ⟨c, hc, hcid⟩ := List.mem_map.mp hxD
    exact ⟨c, hc, by simp [hcid]⟩
  have hsl_not_in_v : ∀ y ∈ v, y ≠ sl := by
    intro y hy hEq
    rw [hluv] at hnodup
    simp only [List.map_append, List.map_cons] at hnodup
    have h2 := (List.nodup_append.mp hnodup).2.1
    exact (List.nodup_cons.mp h2).1 (List.mem_map.mpr ⟨y, hy, by rw [hEq]⟩)
  have hu2none : ∀ y ∈ u2, (y.cards.any (fun c => c.id == x)) = false := by
    intro y hy
    have hyNe_did : ((y.id == did) = false) := hu2 y hy
    have hyndl : y ≠ dl := by
      intro hEq
      rw [hEq, hdlid] at hyNe_did
      simp at hyNe_did
    have hyin : y ∈ u ++ ({ sl with cards := newS } : BList) :: v := by
      rw [← hinner, hluv2]
      exact List.mem_append_left _ hy
    rcases List.mem_append.mp hyin with hyu | hyrest
    · have hyNe_sid : ((y.id == sid) = false) := hu y hyu
      have hynsl : y ≠ sl := by
        intro hEq
        rw [hEq, hslid] at hyNe_sid
        simp at hyNe_sid
      have hy_lists : y ∈ lists := by
        rw [hluv]
        exact List.mem_append_left _ hyu
      exact hnotin y (hxOther y hy_lists hynsl hyndl)
    · rcases List.mem_cons.mp hyrest with hyfs | hyv
      · apply hnotin
        rw [hyfs]
        simpa using hxS
      · have hy_lists : y ∈ lists := by
          rw [hluv]
          exact List.mem_append_right _ (List.mem_cons.mpr (Or.inr hyv))
        exact hnotin y (hxOther y hy_lists (hsl_not_in_v y hyv) hyndl)
  rw [find?_append_left_none hu2none]
  exact List.find?_cons_of_pos _ hcur

/-- C6: while a card drag is active, a hover event whose resolved active
container equals the resolved over-container performs no board mutation;
and — on a board satisfying the id-uniqueness invariants `WF` — processing
the same hover event twice in succession yields the same board as
processing it once: only the first cross-container hover relocates the
card. -/
theorem handleDragOver_idempotent (b : Board) (ty : Option DragKind) (ev : DragOverEvent)
    (hwf : WF b) :
    (∀ oid, ev.overId = some oid →
      findContainer b ev.activeId = findContainer b oid → handleDragOver b ty ev = b) ∧
    handleDragOver (handleDragOver b ty ev) ty ev = handleDragOver b ty ev := by
  obtain ⟨hnodupL, hnodupC, hdisjLC⟩ := hwf
  have part1 : ∀ oid, ev.overId = some oid →
      findContainer b ev.activeId = findContainer b oid → handleDragOver b ty ev = b := by
    intro oid hov heq
    cases hfo : findContainer b oid with
    | none => exact handleDragOver_red_fc_none2 hov hfo
    | some c => exact handleDragOver_red_same hov (heq.trans hfo) hfo
  refine ⟨part1, ?_⟩
  have htriv : handleDragOver b ty ev = b →
      handleDragOver (handleDragOver b ty ev) ty ev = handleDragOver b ty ev := by
    intro hb
    rw [hb]
    exact hb
  cases hov : ev.overId with
  | none => exact htriv (handleDragOver_red_none hov)
  | some oid =>
  by_cases hty : ty = some DragKind.card
  case neg => exact htriv (handleDragOver_red_not_card hov hty)
  case pos =>
  cases hfa : findContainer b ev.activeId with
  | none => exact htriv (handleDragOver_red_fc_none hov hfa)
  | some ac =>
  cases hfo : findContainer b oid with
  | none => exact htriv (handleDragOver_red_fc_none2 hov hfo)
  | some oc =>
  by_cases hacoc : (ac == oc) = true
  case pos =>
    obtain rfl : ac = oc := by simpa using hacoc
    exact htriv (handleDragOver_red_same hov hfa hfo)
  case neg =>
  have hne : (ac == oc) = false := by simpa using hacoc
  cases hsl : b.lists.find? (fun l => l.id == ac) with
  | none => exact htriv (handleDragOver_red_src_none hov hfa hfo hsl)
  | some sourceList =>
  cases hdl : b.lists.find? (fun l => l.id == oc) with
  | none => exact htriv (handleDragOver_red_dst_none hov hfa hfo hdl)
  | some destList =>
  cases hai : sourceList.cards.findIdx? (fun c => c.id == ev.activeId) with
  | none => exact htriv (handleDragOver_red_idx_none hov hfa hfo hsl hdl hai)
  | some ai =>
  obtain ⟨mc, hmc, hmcidb⟩ := findIdx?_some_get hai
  have hmcid : mc.id = ev.activeId := by simpa using hmcidb
  have hsl_mem : sourceList ∈ b.lists := List.mem_of_find?_eq_some hsl
  have hdl_mem : destList ∈ b.lists := List.mem_of_find?_eq_some hdl
  have hslid : sourceList.id = ac := by simpa using List.find?_some hsl
  have hdlid : destList.id = oc := by simpa using List.find?_some hdl
  have hne_s : ac ≠ oc := by simpa using hne
  have hsl_ne_dl : sourceList ≠ destList := by
    intro hEq
    apply hne_s
    rw [← hslid, hEq, hdlid]
  have hmc_mem : mc ∈ sourceList.cards := List.getElem?_mem hmc
  have hactive_card : ev.activeId ∈ cardIdsOf b := by
    rw [← hmcid]
    exact mem_cardIdsOf hsl_mem hmc_mem
  have hanyA : b.lists.any (fun l => l.id == ev.activeId) = false := by
    rw [List.any_eq_false]
    intro l hl hcontra
    apply hdisjLC _ hactive_card
    unfold listIdsOf
    exact List.mem_map.mpr ⟨l, hl, by simpa using hcontra⟩
  have hmove := handleDragOver_red_move hov hty hfa hfo hne hsl hdl hai
  have hex : ∃ di : Int, handleDragOver b ty ev = moveCard b ac oc (ai : Int) di := ⟨_, hmove⟩
  obtain ⟨di, hmv⟩ := hex
  rw [hmv]
  have hlists2 : (moveCard b ac oc (ai : Int) di).lists
      = modifyFirst (modifyFirst b.lists (fun l => l.id == ac)
          (fun l => { l with cards := (sourceList.cards.eraseIdx ai) }))
        (fun l => l.id == oc)
        (fun l => { l with cards :=
          (destList.cards.insertIdx
            (spliceStart destList.cards.length
              (min di (destList.cards.length : Int))) mc) }) := by
    rw [moveCard_success_ne hsl hdl hne_s hmc di]
  have hposle : spliceStart destList.cards.length
      (min di (destList.cards.length : Int)) ≤ destList.cards.length :=
    spliceStart_le _ _
  have hids_pres : (moveCard b ac oc (ai : Int) di).lists.map BList.id
      = b.lists.map BList.id := by
    rw [hlists2, map_modifyFirst BList.id (by exact fun y => rfl),
      map_modifyFirst BList.id (by exact fun y => rfl)]
  have hxD_A : ev.activeId ∈ (destList.cards.insertIdx
      (spliceStart destList.cards.length
        (min di (destList.cards.length : Int))) mc).map Card.id := by
    apply List.mem_map.mpr
    exact ⟨mc, (List.mem_insertIdx hposle).mpr (Or.inl rfl), hmcid⟩
  have hnodup_src : (sourceList.cards.map Card.id).Nodup :=
    nodup_card_ids_of_mem hnodupC hsl_mem
  have hidx_map : (sourceList.cards.map Card.id)[ai]? = some ev.activeId := by
    rw [List.getElem?_map, hmc]
    simp [hmcid]
  have hxS_A : ev.activeId ∉ (sourceList.cards.eraseIdx ai).map Card.id := by
    rw [map_eraseIdx']
    exact not_mem_eraseIdx_of_nodup hnodup_src hidx_map
  have hactive_in_src : ev.activeId ∈ sourceList.cards.map Card.id :=
    List.mem_map.mpr ⟨mc, hmc_mem, hmcid⟩
  have hxOther_A : ∀ y ∈ b.lists, y ≠ sourceList → y ≠ destList →
      ev.activeId ∉ y.cards.map Card.id := by
    intro y hy hyns _ hxin
    exact disjoint_card_ids hnodupC hy hsl_mem hyns hxin hactive_in_src
  have hfA := find?_hasCard_after b.lists ac oc ev.activeId sourceList destList
    (sourceList.cards.eraseIdx ai)
    (destList.cards.insertIdx
      (spliceStart destList.cards.length
        (min di (destList.cards.length : Int))) mc)
    hnodupL hsl hdl hne_s hxD_A hxS_A hxOther_A
  have hanyA2 : (moveCard b ac oc (ai : Int) di).lists.any
      (fun l => l.id == ev.activeId) = false := by
    rw [any_id_congr hids_pres]
    exact hanyA
  have hfa2 : findContainer (moveCard b ac oc (ai : Int) di) ev.activeId = some oc := by
    unfold findContainer
    rw [if_neg (by simp [hanyA2])]
    rw [hlists2, hfA]
    simp [hdlid]
  by_cases hanyO : b.lists.any (fun l => l.id == oid) = true
  case pos =>
    have hoc_oid : oc = oid := by
      have hfc : findContainer b oid = some oid := by
        unfold findContainer
        rw [if_pos hanyO]
      rw [hfo] at hfc
      exact Option.some.inj hfc
    have hfo2 : findContainer (moveCard b ac oc (ai : Int) di) oid = some oc := by
      unfold findContainer
      rw [if_pos (by rw [any_id_congr hids_pres]; exact hanyO)]
      rw [hoc_oid]
    exact handleDragOver_red_same hov hfa2 hfo2
  case neg =>
    have hanyO' : b.lists.any (fun l => l.id == oid) = false := by simpa using hanyO
    have hfcO : findContainer b oid
        = (b.lists.find? (fun l => l.cards.any (fun c => c.id == oid))).map
          (fun l => l.id) := by
      unfold findContainer
      rw [if_neg (by simp [hanyO'])]
    rw [hfcO] at hfo
    obtain ⟨DL0, hDL0, hDL0id⟩ := Option.map_eq_some'.mp hfo
    have hdst_eq : destList = DL0 := by
      have h2 : b.lists.find? (fun l => l.id == DL0.id) = some DL0 :=
        find?_first_of_nodup_ids hnodupL (List.mem_of_find?_eq_some hDL0)
      rw [hDL0id, hdl] at h2
      exact Option.some.inj h2
    obtain ⟨cD, hcD_mem, hcD_id⟩ : ∃ c ∈ destList.cards, c.id = oid := by
      have hany := List.find?_some hDL0
      rw [← hdst_eq] at hany
      rw [List.any_eq_true] at hany
      obtain ⟨c, hc, hcc⟩ := hany
      exact ⟨c, hc, by simpa using hcc⟩
    have hoid_in_dst : oid ∈ destList.cards.map Card.id :=
      List.mem_map.mpr ⟨cD, hcD_mem, hcD_id⟩
    have hxD_O : oid ∈ (destList.cards.insertIdx
        (spliceStart destList.cards.length
          (min di (destList.cards.length : Int))) mc).map Card.id := by
      apply List.mem_map.mpr
      exact ⟨cD, (List.mem_insertIdx hposle).mpr (Or.inr hcD_mem), hcD_id⟩
    have hoid_notin_src : oid ∉ sourceList.cards.map Card.id := by
      intro hin
      exact disjoint_card_ids hnodupC hsl_mem hdl_mem hsl_ne_dl hin hoid_in_dst
    have hxS_O : oid ∉ (sourceList.cards.eraseIdx ai).map Card.id := by
      intro hin
      apply hoid_notin_src
      rw [map_eraseIdx'] at hin
      exact List.Sublist.mem hin (List.eraseIdx_sublist _ ai)
    have hxOther_O : ∀ y ∈ b.lists, y ≠ sourceList → y ≠ destList →
        oid ∉ y.cards.map Card.id := by
      intro y hy _ hynd hxin
      exact disjoint_card_ids hnodupC hy hdl_mem hynd hxin hoid_in_dst
    have hfO := find?_hasCard_after b.lists ac oc oid sourceList destList
      (sourceList.cards.eraseIdx ai)
      (destList.cards.insertIdx
        (spliceStart destList.cards.length
          (min di (destList.cards.length : Int))) mc)
      hnodupL hsl hdl hne_s hxD_O hxS_O hxOther_O
    have hanyO2 : (moveCard b ac oc (ai : Int) di).lists.any
        (fun l => l.id == oid) = false := by
      rw [any_id_congr hids_pres]
      exact hanyO'
    have hfo2 : findContainer (moveCard b ac oc (ai : Int) di) oid = some oc := by
      unfold findContainer
      rw [if_neg (by simp [hanyO2])]
      rw [hlists2, hfO]
      simp [hdlid]
    exact handleDragOver_red_same hov hfa2 hfo2

/-- Witness for C6 at the demo board: dragging `card-1` and hovering over
`list-2` — the second identical hover leaves the moved board as is. -/
theorem handleDragOver_idempotent_witness :
    handleDragOver (handleDragOver demoBoard (some DragKind.card)
        { activeId := "card-1", overId := some "list-2", isBelowOverItem := false })
      (some DragKind.card)
      { activeId := "card-1", overId := some "list-2", isBelowOverItem := false }
    = handleDragOver demoBoard (some DragKind.card)
        { activeId := "card-1", overId := some "list-2", isBelowOverItem := false } :=
  (handleDragOver_idempotent demoBoard (some DragKind.card)
    { activeId := "card-1", overId := some "list-2", isBelowOverItem := false }
    (by unfold WF listIdsOf cardIdsOf; exact ⟨by decide, by decide, by decide⟩)).2

end Trello
